import Mathlib

/-!
Shallow embedding of the filtering + estimation engine of `src/app.py`
(Marketing Campaign Estimator).

Modelling conventions:
  * Python floats are modelled as exact rationals (`ℚ`) together with an
    explicit `nan` marker (`PFloat`), since pandas produces NaN for the mean
    of a series with no numeric entries and NaN propagates through
    arithmetic.  IEEE rounding error is out of scope of the embedding.
  * A pandas cell holding the `Demand` value is `PyVal`: missing (`null`,
    i.e. NaN/None, for which `pd.isna` is true), a string, or a number.
  * Dates are modelled after `pd.to_datetime(..., errors="coerce")`: each
    record carries `Option Int` parsed dates, `none` standing for NaT
    (parse failure).  Comparisons against NaT are false, as in pandas.
  * `Series.str.contains(pat, case=False, na=False)` uses `regex=True` by
    default, so the pattern is a regular expression matched with
    `re.search` and `re.IGNORECASE`.  The embedding `dotSearch` models the
    fragment of regular expressions consisting of literal characters and
    the metacharacter `.` (match any character); theorems about general
    keywords restrict to metacharacter-free patterns, where the model is
    exact.
-/

/-- A pandas cell value for the `Demand` column: missing (NaN/None), a raw
string, or a float (modelled as an exact rational). -/
inductive PyVal where
  | null : PyVal
  | str : String → PyVal
  | num : ℚ → PyVal
deriving DecidableEq

/-- A Python float result: NaN or a numeric value (modelled exactly). -/
inductive PFloat where
  | nan : PFloat
  | num : ℚ → PFloat
deriving DecidableEq

/-- Multiplication of a float by a number: NaN absorbs. -/
def PFloat.mulQ : PFloat → ℚ → PFloat
  | PFloat.nan, _ => PFloat.nan
  | PFloat.num a, q => PFloat.num (a * q)

/-- Addition of two floats: NaN absorbs. -/
def PFloat.add : PFloat → PFloat → PFloat
  | PFloat.num a, PFloat.num b => PFloat.num (a + b)
  | _, _ => PFloat.nan

/-- Halving of a float: NaN absorbs. -/
def PFloat.div2 : PFloat → PFloat
  | PFloat.nan => PFloat.nan
  | PFloat.num a => PFloat.num (a / 2)

/-- Numeric value of a cell, `none` for missing or string cells (pandas
`mean` skips missing values). -/
def PyVal.toNum : PyVal → Option ℚ
  | PyVal.num q => Option.some q
  | _ => Option.none

/-- Value of a list of decimal digit characters (most significant first). -/
def digitsToNat (l : List Char) : ℕ :=
  l.foldl (fun a c => 10 * a + (c.toNat - 48)) 0

/-- Model of Python `float(s)` on an unsigned decimal literal: digits with
at most one point and at least one digit.  (Scientific notation,
underscores, `nan`/`inf` and surrounding whitespace are outside the
modelled fragment; no value in this development reaches them.) -/
def pyFloatCore (l : List Char) : Option ℚ :=
  if l.contains '.' then
    let ip := l.takeWhile (fun c => c != '.')
    let fp := (l.dropWhile (fun c => c != '.')).tail
    if fp.contains '.' then Option.none
    else if ip.isEmpty && fp.isEmpty then Option.none
    else if ip.all Char.isDigit && fp.all Char.isDigit then
      Option.some ((digitsToNat ip : ℚ) + (digitsToNat fp : ℚ) / (10 : ℚ) ^ fp.length)
    else Option.none
  else if !l.isEmpty && l.all Char.isDigit then Option.some ((digitsToNat l : ℚ))
  else Option.none

/-- Model of Python `float(s)`: optional sign, then an unsigned decimal
literal; `none` models the `ValueError` raised on anything else. -/
def pyFloatL : List Char → Option ℚ
  | '-' :: t => (pyFloatCore t).map (fun q => -q)
  | '+' :: t => pyFloatCore t
  | l => pyFloatCore l

/-- Decimal digit characters of `n`, most significant first (fuel-indexed
helper). -/
def natToCharsAux : ℕ → ℕ → List Char
  | 0, _ => []
  | fuel + 1, n =>
    if n < 10 then [Nat.digitChar n]
    else natToCharsAux fuel (n / 10) ++ [Nat.digitChar (n % 10)]

/-- Decimal digit characters of `n`, most significant first. -/
def natToChars (n : ℕ) : List Char := natToCharsAux (n + 1) n

/-- Fractional decimal digits of `n / d` (with `n < d`), fuel-indexed; stops
when the remainder is zero.  Exact for fractions with a terminating decimal
expansion, which covers every value a Python float can hold. -/
def fracDigits : ℕ → ℕ → ℕ → List Char
  | _, _, 0 => []
  | n, d, fuel + 1 =>
    if n = 0 then []
    else Nat.digitChar ((n * 10) / d) :: fracDigits ((n * 10) % d) d fuel

/-- Model of Python `str(x)` on a float `x`: sign, integer part, a point and
the fractional digits (`"123456.0"` style, a float always shows a point),
computed by long division from the numerator and denominator. -/
def ratToDecChars (q : ℚ) : List Char :=
  let sgn : List Char := if q.num < 0 then ['-'] else []
  let n : ℕ := q.num.natAbs
  let d : ℕ := q.den
  let ds := fracDigits (n % d) d d
  sgn ++ natToChars (n / d) ++ ['.'] ++ (if ds.isEmpty then ['0'] else ds)

/-- Model of Python `str(val)` as used in `parse_demand` (line 17 of
`src/app.py`).  `str(None)` is `"None"`; that branch is unreachable because
`pd.isna` is tested first. -/
def pyStr : PyVal → List Char
  | PyVal.null => ['N', 'o', 'n', 'e']
  | PyVal.str s => s.data
  | PyVal.num q => ratToDecChars q

/-- Embedding of `parse_demand` (src/app.py lines 14-23): missing input
gives `None`; otherwise the value is turned into a string, the euro sign
and spaces are removed, every `.` is removed (thousands separator), `,`
becomes `.` (decimal separator), and the result is parsed as a float, a
`ValueError` being caught as `None`. -/
def parse_demand (val : PyVal) : Option ℚ :=
  match val with
  | PyVal.null => Option.none
  | v =>
    let s0 := pyStr v
    let s1 := s0.filter (fun c => c != '€' && c != ' ')
    let s2 := s1.filter (fun c => c != '.')
    let s3 := s2.map (fun c => if c = ',' then '.' else c)
    pyFloatL s3

/-- One row of the loaded table, with the fields the engine reads.  Text
cells are `Option String` (`none` = missing, pandas NaN); the two date
cells hold the result of `pd.to_datetime(..., dayfirst=True,
errors="coerce")`, `none` standing for NaT. -/
structure Row where
  country : Option String
  description : Option String
  campaignName : Option String
  categoryName : Option String
  dateStartP : Option Int
  dateEndP : Option Int
  demand : PyVal
deriving DecidableEq

/-- Embedding of `clean_demand_column` (src/app.py lines 13-25): the
`Demand` column is mapped through `parse_demand`; every other column is
untouched. -/
def clean_demand_column (df : List Row) : List Row :=
  df.map (fun r =>
    { r with demand := match parse_demand r.demand with
                       | Option.some q => PyVal.num q
                       | Option.none => PyVal.null })

/-- Case-insensitive match of a literal-and-dot regex pattern against a
prefix of `s` (`.` matches any single character, other characters match up
to `Char.toLower`). -/
def dotMatch : List Char → List Char → Bool
  | [], _ => true
  | _ :: _, [] => false
  | p :: ps, c :: cs => (p == '.' || p.toLower == c.toLower) && dotMatch ps cs

/-- Model of `re.search` with `re.IGNORECASE` for a literal-and-dot
pattern: the pattern matches at some position of `s`. -/
def dotSearch : List Char → List Char → Bool
  | p, [] => dotMatch p []
  | p, c :: cs => dotMatch p (c :: cs) || dotSearch p cs

/-- Case-insensitive literal match of a pattern against a prefix of `s`
(every character compared up to `Char.toLower`; no metacharacters). -/
def litMatch : List Char → List Char → Bool
  | [], _ => true
  | _ :: _, [] => false
  | p :: ps, c :: cs => (p.toLower == c.toLower) && litMatch ps cs

/-- Case-insensitive literal substring search: the pattern occurs literally
at some position of `s`. -/
def litSearch : List Char → List Char → Bool
  | p, [] => litMatch p []
  | p, c :: cs => litMatch p (c :: cs) || litSearch p cs

/-- The characters Python's `re` treats specially in a pattern. -/
def regexSpecial (c : Char) : Bool :=
  c == '.' || c == '^' || c == '$' || c == '*' || c == '+' || c == '?' ||
  c == '\x7b' || c == '\x7d' || c == '[' || c == ']' || c == '\\' ||
  c == '|' || c == '(' || c == ')'

/-- Embedding of `Series.str.contains(pat, case=False, na=False)` applied
to one cell: a missing cell gives `False` (`na=False`), otherwise the
pattern is regex-searched case-insensitively in the cell. -/
def strContainsNa (pat : String) : Option String → Bool
  | Option.none => false
  | Option.some s => dotSearch pat.data s.data

/-- The claim's notion of case-insensitive substring: the keyword occurs
literally (case-insensitively) in the cell; a missing cell contains
nothing. -/
def ciSubstrNa (pat : String) : Option String → Bool
  | Option.none => false
  | Option.some s => litSearch pat.data s.data

/-- Country predicate of `filter_data` (line 28): `df["Country"] ==
country`; a missing cell never equals a string. -/
def countryMask (country : String) (r : Row) : Bool :=
  r.country == Option.some country

/-- Category stage of `filter_data` (lines 30-31): skipped when the
selection is falsy (`None` or `""`) or `"All"`, otherwise a
case-insensitive `str.contains` on `Category_name` with `na=False`. -/
def categoryStage (selected_category : Option String) (l : List Row) : List Row :=
  match selected_category with
  | Option.none => l
  | Option.some c =>
    if c = "" || c = "All" then l
    else l.filter (fun r => strContainsNa c r.categoryName)

/-- Keyword mask of `filter_data` (lines 34-36): the keyword is contained
in `Description` or in `Campaign name` (case-insensitive, `na=False`). -/
def keywordMask (campaign_filter : String) (r : Row) : Bool :=
  strContainsNa campaign_filter r.description ||
  strContainsNa campaign_filter r.campaignName

/-- Keyword stage of `filter_data` (lines 33-36): applied only when the
keyword is truthy and at least 3 characters long (a string of length ≥ 3
is always truthy, so the gate is exactly `3 ≤ length`). -/
def keywordStage (campaign_filter : String) (l : List Row) : List Row :=
  if 3 ≤ campaign_filter.length then l.filter (keywordMask campaign_filter) else l

/-- Date-window mask of `filter_data` (lines 40-43): parsed start on or
after the window start and parsed end on or before the window end; a NaT
comparison is false. -/
def dateMask (start_date end_date : Int) (r : Row) : Bool :=
  (match r.dateStartP with
   | Option.some d => decide (start_date ≤ d)
   | Option.none => false) &&
  (match r.dateEndP with
   | Option.some d => decide (d ≤ end_date)
   | Option.none => false)

/-- Embedding of `filter_data` (src/app.py lines 27-44).  The first
component is the source frame as it stands after the call: line 28 selects
by country into a fresh `.copy()`, so the date-column assignments of lines
38-39 rebuild only the copy and the source is returned unchanged.  The
second component is the returned filtered frame. -/
def filter_data (df : List Row) (country campaign_filter : String)
    (start_date end_date : Int) (selected_category : Option String) :
    List Row × List Row :=
  (df,
   (keywordStage campaign_filter
      (categoryStage selected_category
         (df.filter (countryMask country)))).filter (dateMask start_date end_date))

/-- Embedding of pandas `Series.mean()` over the `Demand` column of a
non-empty frame: missing values are skipped; when no numeric value remains
the mean is NaN. -/
def colMean (xs : List PyVal) : PFloat :=
  let vs := xs.filterMap PyVal.toNum
  if vs.isEmpty then PFloat.nan else PFloat.num (vs.sum / (vs.length : ℚ))

/-- Embedding of `estimate_demand` (src/app.py lines 46-58): each period
mean is `None` exactly when the frame is empty, otherwise the pandas mean
(possibly NaN); then the four `is None` branches of the source. -/
def estimate_demand (earlier_df later_df : List Row) (percentage : ℚ) :
    Option PFloat :=
  let earlier_mean : Option PFloat :=
    if earlier_df.isEmpty then Option.none
    else Option.some (colMean (earlier_df.map Row.demand))
  let later_mean : Option PFloat :=
    if later_df.isEmpty then Option.none
    else Option.some (colMean (later_df.map Row.demand))
  match earlier_mean, later_mean with
  | Option.none, Option.none => Option.none
  | Option.some em, Option.some lm =>
      Option.some (((em.mulQ (1 + percentage / 100)).add lm).div2)
  | Option.some em, Option.none =>
      Option.some (em.mulQ (1 + percentage / 100))
  | Option.none, Option.some lm => Option.some lm

/-- Following the spec's words (§4.3): the mean of the demand values over a
subset, ignoring null demand, absent if the subset is empty or all-null. -/
def specMean (rs : List Row) : Option ℚ :=
  let vs := (rs.map Row.demand).filterMap PyVal.toNum
  if vs.isEmpty then Option.none else Option.some (vs.sum / (vs.length : ℚ))

/-- Following the spec's words (§4.3): the fixed four-case combination
precedence of the estimator over the two period means. -/
def specEstimate (em lm : Option ℚ) (g : ℚ) : Option ℚ :=
  match em, lm with
  | Option.some a, Option.some b => Option.some ((a * (1 + g / 100) + b) / 2)
  | Option.some a, Option.none => Option.some (a * (1 + g / 100))
  | Option.none, Option.some b => Option.some b
  | Option.none, Option.none => Option.none

/-- Embedding of `required_cols` (src/app.py line 76). -/
def required_cols : Finset String :=
  {"Country", "Description", "Date Start", "Date End", "Demand",
   "Campaign name", "Category_name"}

/-- The set shown in the missing-columns error (line 78):
`required_cols - set(df.columns)`. -/
def missing_cols (cols : List String) : Finset String :=
  required_cols \ cols.toFinset

/-- Outcome of the post-load schema check: either the error naming the
missing columns, or the table after demand normalization. -/
inductive LoadResult where
  | error : Finset String → LoadResult
  | ok : List Row → LoadResult
deriving DecidableEq

/-- Embedding of the post-load pipeline head (src/app.py lines 76-80): if
any required column is absent the error names `required_cols -
set(df.columns)` and nothing further runs; otherwise the demand column is
cleaned and processing continues with the cleaned table. -/
def process_upload (cols : List String) (df : List Row) : LoadResult :=
  if required_cols ⊆ cols.toFinset then LoadResult.ok (clean_demand_column df)
  else LoadResult.error (missing_cols cols)

/-- A table row that differs from the defaults only in its demand cell,
used to exercise the estimator. -/
def rowD (v : PyVal) : Row :=
  ⟨Option.none, Option.none, Option.none, Option.none, Option.none,
   Option.none, v⟩

/-- A German row inside the date window 0-10 with a description matched by
the regex pattern `a.c` but not containing it as a substring. -/
def rowDotRegex : Row :=
  ⟨Option.some "DE", Option.some "abc", Option.none, Option.none,
   Option.some 1, Option.some 5, PyVal.null⟩

/-- A German row whose description contains the keyword `sale`
case-insensitively. -/
def rowSale : Row :=
  ⟨Option.some "DE", Option.some "Summer SALE event", Option.none,
   Option.none, Option.some 1, Option.some 5, PyVal.null⟩

/-- A German row with both text fields missing. -/
def rowNoText : Row :=
  ⟨Option.some "DE", Option.none, Option.none, Option.none, Option.some 1,
   Option.some 5, PyVal.null⟩

/-- A German row whose end date failed to parse (NaT). -/
def rowBadDate : Row :=
  ⟨Option.some "DE", Option.none, Option.none, Option.none, Option.some 1,
   Option.none, PyVal.null⟩

/-- The date mask holds exactly when both dates parsed and lie inside the
window (a NaT comparison is false). -/
lemma dateMask_true_iff (s e : Int) (r : Row) :
    dateMask s e r = true ↔
      (∃ d, r.dateStartP = Option.some d ∧ s ≤ d) ∧
      (∃ d, r.dateEndP = Option.some d ∧ d ≤ e) := by
  unfold dateMask
  cases r.dateStartP <;> cases r.dateEndP <;> simp

/-- A subset containing a row with a numeric demand has a non-empty list of
numeric demand values. -/
lemma numericDemands_ne_nil (rs : List Row)
    (h : ∃ r ∈ rs, ∃ q : ℚ, r.demand = PyVal.num q) :
    ((rs.map Row.demand).filterMap PyVal.toNum).isEmpty = false := by
  obtain ⟨r, hr, q, hq⟩ := h
  have hmem : q ∈ (rs.map Row.demand).filterMap PyVal.toNum := by
    refine List.mem_filterMap.mpr ⟨r.demand, List.mem_map_of_mem _ hr, ?_⟩
    rw [hq]; rfl
  have hne := List.ne_nil_of_mem hmem
  cases hval : (rs.map Row.demand).filterMap PyVal.toNum with
  | nil => exact absurd hval hne
  | cons a t => rfl

/-- C3: `normalize` maps `"1.234,56 €"` to `1234.56`, `"0,5"` to `0.5`,
the empty string and missing input to null, garbage text to null, and for
every input it returns a float or null (the `ValueError` of `float` is
caught, so nothing propagates to the caller). -/
theorem C3_normalize_cases :
    parse_demand (PyVal.str "1.234,56 €") = Option.some (1234.56 : ℚ)
    ∧ parse_demand (PyVal.str "0,5") = Option.some (0.5 : ℚ)
    ∧ parse_demand (PyVal.str "") = Option.none
    ∧ parse_demand PyVal.null = Option.none
    ∧ parse_demand (PyVal.str "abc") = Option.none
    ∧ ∀ v : PyVal,
        (∃ q : ℚ, parse_demand v = Option.some q) ∨ parse_demand v = Option.none := by
  have h1 : parse_demand (PyVal.str "1.234,56 €")
      = Option.some ((digitsToNat ['1', '2', '3', '4'] : ℚ)
          + (digitsToNat ['5', '6'] : ℚ) / (10 : ℚ) ^ 2) := rfl
  have h2 : parse_demand (PyVal.str "0,5")
      = Option.some ((digitsToNat ['0'] : ℚ)
          + (digitsToNat ['5'] : ℚ) / (10 : ℚ) ^ 1) := rfl
  have d1 : digitsToNat ['1', '2', '3', '4'] = 1234 := by decide
  have d2 : digitsToNat ['5', '6'] = 56 := by decide
  have d3 : digitsToNat ['0'] = 0 := by decide
  have d4 : digitsToNat ['5'] = 5 := by decide
  refine ⟨?_, ?_, by decide, rfl, by decide, ?_⟩
  · rw [h1, d1, d2]
    norm_num
  · rw [h2, d3, d4]
    norm_num
  · intro v
    cases h : parse_demand v with
    | none => exact Or.inr rfl
    | some q => exact Or.inl ⟨q, rfl⟩

/-- C4 counterexample: the normalizer is not idempotent on an
already-normalized numeric value; applied to the float `1234.56` it strips
the decimal point as a thousands separator and yields `123456`, not
`1234.56`. -/
theorem C4_counterexample :
    mkRat 30864 25 = (1234.56 : ℚ)
    ∧ parse_demand (PyVal.num (mkRat 30864 25)) = Option.some (123456 : ℚ)
    ∧ Option.some (123456 : ℚ) ≠ Option.some (1234.56 : ℚ) := by
  have hval : mkRat 30864 25 = (1234.56 : ℚ) := by
    rw [Rat.mkRat_eq_div]
    norm_num
  refine ⟨hval, by decide, ?_⟩
  intro h
  rw [Option.some.injEq] at h
  norm_num at h

/-- C4 (amended): re-running the normalizer on an already-null value stays
null, but the normalizer is not idempotent on already-normalized numerics:
applied to the float `1234.56` it double-transforms it into `123456`
(idempotence of the pipeline holds only because `clean_demand_column` is
applied once, to the raw textual column). -/
theorem C4_renormalize :
    parse_demand PyVal.null = Option.none
    ∧ parse_demand (PyVal.num (mkRat 30864 25)) = Option.some (123456 : ℚ)
    ∧ mkRat 30864 25 = (1234.56 : ℚ) := by
  refine ⟨rfl, by decide, ?_⟩
  rw [Rat.mkRat_eq_div]
  norm_num

/-- C2 (code divergence): for a non-empty earlier subset whose demand
values are all null and a later subset with numeric mean 150, the code
returns NaN (the pandas mean of an all-null column is NaN, which is not
`None`, so the "both means present" branch blends it), not the later mean
150 required by the spec. -/
theorem C2_allnull_mean_evaluates_to_nan :
    estimate_demand [rowD PyVal.null, rowD PyVal.null] [rowD (PyVal.num 150)] 5
      = Option.some PFloat.nan
    ∧ Option.some PFloat.nan ≠ Option.some (PFloat.num 150) := by
  constructor
  · decide
  · decide

/-- C8: `filter_data` never mutates the source table (the country
selection is copied with `.copy()` before the date columns are rewritten),
and filtering the two periods with independent parameters, in either
order, yields the same pair of result subsets as filtering the pristine
table. -/
theorem C8_filter_no_mutation (df : List Row) (c1 k1 : String) (s1 e1 : Int)
    (sc1 : Option String) (c2 k2 : String) (s2 e2 : Int) (sc2 : Option String) :
    (filter_data df c1 k1 s1 e1 sc1).1 = df
    ∧ (filter_data ((filter_data df c1 k1 s1 e1 sc1).1) c2 k2 s2 e2 sc2).2
        = (filter_data df c2 k2 s2 e2 sc2).2
    ∧ (filter_data ((filter_data df c2 k2 s2 e2 sc2).1) c1 k1 s1 e1 sc1).2
        = (filter_data df c1 k1 s1 e1 sc1).2 :=
  ⟨rfl, rfl, rfl⟩

/-- C7: a loaded table that is missing only the `Demand` column among the
required columns is rejected with an error naming exactly `{"Demand"}`,
and no cleaned table is produced (no further processing runs); a missing
required column is never silently tolerated. -/
theorem C7_schema_missing_demand (cols : List String) (df : List Row)
    (hd : "Demand" ∉ cols)
    (hrest : ∀ c ∈ required_cols, c ≠ "Demand" → c ∈ cols) :
    process_upload cols df = LoadResult.error {"Demand"}
    ∧ ∀ rows, process_upload cols df ≠ LoadResult.ok rows := by
  have hdm : "Demand" ∈ required_cols := by decide
  have hnot : ¬ required_cols ⊆ cols.toFinset := by
    intro hsub
    exact hd (List.mem_toFinset.mp (hsub hdm))
  have hmiss : missing_cols cols = {"Demand"} := by
    unfold missing_cols
    apply Finset.ext
    intro c
    rw [Finset.mem_sdiff, Finset.mem_singleton, List.mem_toFinset]
    constructor
    · rintro ⟨hc, hnc⟩
      by_contra hne
      exact hnc (hrest c hc hne)
    · rintro rfl
      exact ⟨hdm, hd⟩
  unfold process_upload
  rw [if_neg hnot, hmiss]
  exact ⟨rfl, fun rows h => LoadResult.noConfusion h⟩

/-- Witness for C7 at a concrete list of columns missing only `Demand`. -/
theorem C7_witness :
    process_upload
      ["Country", "Description", "Date Start", "Date End", "Campaign name",
       "Category_name"] [] = LoadResult.error {"Demand"} :=
  (C7_schema_missing_demand
    ["Country", "Description", "Date Start", "Date End", "Campaign name",
     "Category_name"] [] (by decide) (by decide)).1

/-- C5: every record in a filtered result has a parsed start date on or
after the window start and a parsed end date on or before the window end
(both bounds inclusive), and a record whose start or end date failed to
parse (NaT) is absent from the filtered result for every window. -/
theorem C5_date_window (df : List Row) (country kw : String) (s e : Int)
    (sc : Option String) :
    (∀ r ∈ (filter_data df country kw s e sc).2,
       (∃ d, r.dateStartP = Option.some d ∧ s ≤ d)
       ∧ (∃ d, r.dateEndP = Option.some d ∧ d ≤ e))
    ∧ ∀ r : Row, r.dateStartP = Option.none ∨ r.dateEndP = Option.none →
        r ∉ (filter_data df country kw s e sc).2 := by
  constructor
  · intro r hr
    have hm := (List.mem_filter.mp hr).2
    exact (dateMask_true_iff s e r).mp hm
  · intro r hnone hr
    have hm := (List.mem_filter.mp hr).2
    rcases (dateMask_true_iff s e r).mp hm with ⟨⟨d1, hd1, _⟩, ⟨d2, hd2, _⟩⟩
    rcases hnone with h | h
    · rw [h] at hd1
      exact Option.noConfusion hd1
    · rw [h] at hd2
      exact Option.noConfusion hd2

/-- Witness for C5 at a concrete table: the in-window row is inside the
result with its dates bracketed by the window, and the row whose end date
failed to parse is excluded. -/
theorem C5_witness :
    ((∃ d, rowSale.dateStartP = Option.some d ∧ (0 : Int) ≤ d)
      ∧ (∃ d, rowSale.dateEndP = Option.some d ∧ d ≤ (10 : Int)))
    ∧ rowBadDate ∉ (filter_data [rowSale, rowBadDate] "DE" "" 0 10 Option.none).2 := by
  have h := C5_date_window [rowSale, rowBadDate] "DE" "" 0 10 Option.none
  exact ⟨h.1 rowSale (by decide), h.2 rowBadDate (Or.inr rfl)⟩

/-- C9: when a keyword of length at least 3 is active, a row whose
`Description` and `Campaign name` are both missing is excluded from the
filtered result — a missing text field never matches the keyword
(`na=False`). -/
theorem C9_missing_text_excluded (df : List Row) (country kw : String)
    (s e : Int) (sc : Option String) (r : Row)
    (h3 : 3 ≤ kw.length) (hdesc : r.description = Option.none)
    (hcamp : r.campaignName = Option.none) :
    r ∉ (filter_data df country kw s e sc).2 := by
  intro hr
  have hstage : r ∈ keywordStage kw
      (categoryStage sc (df.filter (countryMask country))) :=
    (List.mem_filter.mp hr).1
  unfold keywordStage at hstage
  rw [if_pos h3] at hstage
  have hm := (List.mem_filter.mp hstage).2
  rw [keywordMask, hdesc, hcamp] at hm
  exact Bool.noConfusion hm

/-- Witness for C9: the row with both text fields missing is excluded for
the concrete keyword `sale`. -/
theorem C9_witness :
    rowNoText ∉ (filter_data [rowNoText] "DE" "sale" 0 10 Option.none).2 :=
  C9_missing_text_excluded [rowNoText] "DE" "sale" 0 10 Option.none rowNoText
    (by decide) rfl rfl

/-- On a pattern without regex metacharacters, the regex prefix match is
the literal case-insensitive prefix match. -/
lemma dotMatch_eq_litMatch :
    ∀ p : List Char, (∀ c ∈ p, regexSpecial c = false) →
      ∀ s, dotMatch p s = litMatch p s := by
  intro p
  induction p with
  | nil =>
    intro _ s
    cases s <;> rfl
  | cons a ps ih =>
    intro hp s
    cases s with
    | nil => rfl
    | cons c cs =>
      have ha : regexSpecial a = false := hp a (List.mem_cons_self a ps)
      have hdot : (a == '.') = false := by
        by_contra hne
        rw [Bool.not_eq_false] at hne
        rw [regexSpecial, hne] at ha
        simp at ha
      simp only [dotMatch, litMatch, hdot, Bool.false_or,
        ih (fun c hc => hp c (List.mem_cons_of_mem a hc)) cs]

/-- On a pattern without regex metacharacters, the regex search is the
literal case-insensitive substring search. -/
lemma dotSearch_eq_litSearch (p : List Char)
    (hp : ∀ c ∈ p, regexSpecial c = false) :
    ∀ s, dotSearch p s = litSearch p s := by
  intro s
  induction s with
  | nil => exact dotMatch_eq_litMatch p hp []
  | cons c cs ih =>
    simp only [dotSearch, litSearch, dotMatch_eq_litMatch p hp, ih]

/-- `litMatch` succeeds exactly when the lowered pattern is a prefix of the
lowered text. -/
lemma litMatch_prefix_iff :
    ∀ p s : List Char,
      litMatch p s = true ↔
        ∃ t, s.map Char.toLower = p.map Char.toLower ++ t := by
  intro p
  induction p with
  | nil =>
    intro s
    simp [litMatch]
  | cons a ps ih =>
    intro s
    cases s with
    | nil => simp [litMatch]
    | cons c cs =>
      simp only [litMatch, List.map_cons, Bool.and_eq_true, beq_iff_eq,
        List.cons_append]
      constructor
      · rintro ⟨hac, hm⟩
        obtain ⟨t, ht⟩ := (ih cs).mp hm
        exact ⟨t, by rw [ht, hac]⟩
      · rintro ⟨t, ht⟩
        injection ht with h1 h2
        exact ⟨h1.symm, (ih cs).mpr ⟨t, h2⟩⟩

/-- `litSearch` succeeds exactly when the lowered pattern occurs as a
contiguous run inside the lowered text: it is a case-insensitive substring
test. -/
lemma litSearch_iff_substring :
    ∀ p s : List Char,
      litSearch p s = true ↔
        ∃ u t, s.map Char.toLower = u ++ p.map Char.toLower ++ t := by
  intro p s
  induction s with
  | nil =>
    simp only [litSearch]
    rw [litMatch_prefix_iff]
    constructor
    · rintro ⟨t, ht⟩
      exact ⟨[], t, by simpa using ht⟩
    · rintro ⟨u, t, ht⟩
      simp only [List.map_nil] at ht
      rcases List.append_eq_nil.mp (List.append_eq_nil.mp ht.symm).1 with ⟨_, hp⟩
      exact ⟨[], by simp [hp]⟩
  | cons c cs ih =>
    simp only [litSearch, Bool.or_eq_true]
    rw [litMatch_prefix_iff, ih]
    constructor
    · rintro (⟨t, ht⟩ | ⟨u, t, ht⟩)
      · exact ⟨[], t, by simpa using ht⟩
      · exact ⟨c.toLower :: u, t, by simp [ht]⟩
    · rintro ⟨u, t, ht⟩
      cases u with
      | nil => exact Or.inl ⟨t, by simpa using ht⟩
      | cons x u2 =>
        rw [List.map_cons, List.cons_append, List.cons_append] at ht
        injection ht with h1 h2
        exact Or.inr ⟨u2, t, h2⟩

/-- C6 counterexample: the keyword is passed to pandas `str.contains` as a
regular expression, so the length-3 keyword `a.c` retains the row whose
description is `abc` even though `a.c` is not a case-insensitive substring
of `abc` (nor of the missing campaign name) — the "retained iff
substring" claim fails. -/
theorem C6_counterexample :
    keywordStage "a.c" [rowDotRegex] = [rowDotRegex]
    ∧ ciSubstrNa "a.c" rowDotRegex.description = false
    ∧ ciSubstrNa "a.c" rowDotRegex.campaignName = false := by
  refine ⟨by decide, by decide, rfl⟩

/-- C6 (amended): a keyword of fewer than 3 characters applies no keyword
filter (the stage returns the frame unchanged); a keyword of 3 or more
characters free of regex metacharacters retains a row exactly when the
keyword is a case-insensitive substring of its `Description` or of its
`Campaign name`; and the keyword `sale` matches the description
`Summer SALE event`. -/
theorem C6_keyword_predicate (kw : String) (l : List Row) (r : Row) :
    (kw.length < 3 → keywordStage kw l = l)
    ∧ (3 ≤ kw.length → (∀ c ∈ kw.data, regexSpecial c = false) →
        (r ∈ keywordStage kw l ↔
          r ∈ l ∧ (ciSubstrNa kw r.description = true
                   ∨ ciSubstrNa kw r.campaignName = true)))
    ∧ ciSubstrNa "sale" (Option.some "Summer SALE event") = true := by
  refine ⟨?_, ?_, by decide⟩
  · intro h
    unfold keywordStage
    rw [if_neg (by omega)]
  · intro h3 hlit
    unfold keywordStage
    rw [if_pos h3, List.mem_filter]
    have hco : ∀ os : Option String, strContainsNa kw os = ciSubstrNa kw os := by
      intro os
      cases os with
      | none => rfl
      | some s => exact dotSearch_eq_litSearch kw.data hlit s.data
    rw [keywordMask, hco, hco, Bool.or_eq_true]

/-- Witness for C6 at concrete keywords: the 2-letter keyword `ab` removes
nothing, and for the metacharacter-free keyword `sal` membership in the
keyword stage coincides with the case-insensitive substring test. -/
theorem C6_witness :
    keywordStage "ab" [rowSale] = [rowSale]
    ∧ (rowSale ∈ keywordStage "sal" [rowSale] ↔
        rowSale ∈ [rowSale]
        ∧ (ciSubstrNa "sal" rowSale.description = true
           ∨ ciSubstrNa "sal" rowSale.campaignName = true)) :=
  ⟨(C6_keyword_predicate "ab" [rowSale] rowSale).1 (by decide),
   (C6_keyword_predicate "sal" [rowSale] rowSale).2.1 (by decide) (by decide)⟩

/-- C10: demand normalization touches only the `Demand` column — the row
count is preserved and, position by position, every field other than
`demand` is unchanged. -/
theorem C10_demand_column_only (df : List Row) :
    (clean_demand_column df).length = df.length
    ∧ ∀ (i : ℕ) (h1 : i < (clean_demand_column df).length) (h2 : i < df.length),
        ((clean_demand_column df).get ⟨i, h1⟩).country = (df.get ⟨i, h2⟩).country
        ∧ ((clean_demand_column df).get ⟨i, h1⟩).description
            = (df.get ⟨i, h2⟩).description
        ∧ ((clean_demand_column df).get ⟨i, h1⟩).campaignName
            = (df.get ⟨i, h2⟩).campaignName
        ∧ ((clean_demand_column df).get ⟨i, h1⟩).categoryName
            = (df.get ⟨i, h2⟩).categoryName
        ∧ ((clean_demand_column df).get ⟨i, h1⟩).dateStartP
            = (df.get ⟨i, h2⟩).dateStartP
        ∧ ((clean_demand_column df).get ⟨i, h1⟩).dateEndP
            = (df.get ⟨i, h2⟩).dateEndP := by
  constructor
  · simp [clean_demand_column]
  · intro i h1 h2
    simp [clean_demand_column]

/-- Witness for C10 at a concrete one-row table. -/
theorem C10_witness :
    (clean_demand_column [rowSale]).length = [rowSale].length
    ∧ ((clean_demand_column [rowSale]).get ⟨0, by decide⟩).country
        = ([rowSale].get ⟨0, by decide⟩).country :=
  ⟨(C10_demand_column_only [rowSale]).1,
   ((C10_demand_column_only [rowSale]).2 0 (by decide) (by decide)).1⟩

/-- C1 counterexample: for a non-empty earlier subset whose only demand is
null and a later subset with mean 200, the four-case precedence (the
earlier mean being absent per the spec, only the later mean present) would
return 200, but the code returns NaN — the pandas mean of an all-null
column is NaN, not `None`, so the blending branch runs. -/
theorem C1_counterexample :
    estimate_demand [rowD PyVal.null] [rowD (PyVal.num 200)] 10
      = Option.some PFloat.nan
    ∧ Option.map PFloat.num
        (specEstimate (specMean [rowD PyVal.null])
          (specMean [rowD (PyVal.num 200)]) 10)
        = Option.some (PFloat.num 200)
    ∧ Option.some PFloat.nan ≠ Option.some (PFloat.num 200) := by
  have h200 : specMean [rowD (PyVal.num 200)] = Option.some (200 : ℚ) := by
    simp [specMean, rowD, PyVal.toNum]
  refine ⟨by decide, ?_, by decide⟩
  rw [show specMean [rowD PyVal.null] = Option.none from rfl, h200]
  rfl

/-- C1 (amended): for every earlier subset, later subset and growth
percentage, provided each subset is either empty or contains at least one
non-null demand (for a non-empty all-null subset the pandas mean is NaN,
not an absent mean, and the code blends it — see the counterexample), the
estimator follows the fixed four-case precedence of the spec: both means
present → `(earlierMean * (1 + g/100) + laterMean) / 2`; only the earlier
mean → `earlierMean * (1 + g/100)`; only the later mean → `laterMean`;
neither → null. -/
theorem C1_fourcase_precedence (earlier later : List Row) (g : ℚ)
    (hE : earlier = [] ∨ ∃ r ∈ earlier, ∃ q : ℚ, r.demand = PyVal.num q)
    (hL : later = [] ∨ ∃ r ∈ later, ∃ q : ℚ, r.demand = PyVal.num q) :
    estimate_demand earlier later g
      = Option.map PFloat.num (specEstimate (specMean earlier) (specMean later) g) := by
  have hNum : ∀ rs : List Row, (∃ r ∈ rs, ∃ q : ℚ, r.demand = PyVal.num q) →
      rs.isEmpty = false
      ∧ ((rs.map Row.demand).filterMap PyVal.toNum).isEmpty = false := by
    intro rs h
    refine ⟨?_, numericDemands_ne_nil rs h⟩
    obtain ⟨r, hr, _⟩ := h
    cases rs with
    | nil => exact absurd hr (List.not_mem_nil r)
    | cons a t => rfl
  rcases hE with rfl | hE
  · rcases hL with rfl | hL
    · rfl
    · obtain ⟨hl1, hl2⟩ := hNum later hL
      have hl1b : later ≠ [] := by simpa using hl1
      have hl2b : ¬ ∀ a ∈ later, a.demand.toNum = Option.none := by
        simpa using hl2
      simp [estimate_demand, specMean, specEstimate, colMean, hl1b, hl2b]
  · obtain ⟨he1, he2⟩ := hNum earlier hE
    have he1b : earlier ≠ [] := by simpa using he1
    have he2b : ¬ ∀ a ∈ earlier, a.demand.toNum = Option.none := by
      simpa using he2
    rcases hL with rfl | hL
    · simp [estimate_demand, specMean, specEstimate, colMean, he1b, he2b,
        PFloat.mulQ]
    · obtain ⟨hl1, hl2⟩ := hNum later hL
      have hl1b : later ≠ [] := by simpa using hl1
      have hl2b : ¬ ∀ a ∈ later, a.demand.toNum = Option.none := by
        simpa using hl2
      simp [estimate_demand, specMean, specEstimate, colMean, he1b, he2b,
        hl1b, hl2b, PFloat.mulQ, PFloat.add, PFloat.div2]

/-- Witness for C1 at the spec's two numeric examples: earlier mean 100
with growth 10 and later mean 200 gives 155, and earlier mean 100 with
growth -50 and later mean 100 gives 75. -/
theorem C1_witness :
    estimate_demand [rowD (PyVal.num 100)] [rowD (PyVal.num 200)] 10
      = Option.some (PFloat.num 155)
    ∧ estimate_demand [rowD (PyVal.num 100)] [rowD (PyVal.num 100)] (-50)
      = Option.some (PFloat.num 75) := by
  have h100 : specMean [rowD (PyVal.num 100)] = Option.some (100 : ℚ) := by
    simp [specMean, rowD, PyVal.toNum]
  have h200 : specMean [rowD (PyVal.num 200)] = Option.some (200 : ℚ) := by
    simp [specMean, rowD, PyVal.toNum]
  have k1 := C1_fourcase_precedence [rowD (PyVal.num 100)] [rowD (PyVal.num 200)] 10
    (Or.inr ⟨rowD (PyVal.num 100), List.mem_singleton_self _, 100, rfl⟩)
    (Or.inr ⟨rowD (PyVal.num 200), List.mem_singleton_self _, 200, rfl⟩)
  have k2 := C1_fourcase_precedence [rowD (PyVal.num 100)] [rowD (PyVal.num 100)] (-50)
    (Or.inr ⟨rowD (PyVal.num 100), List.mem_singleton_self _, 100, rfl⟩)
    (Or.inr ⟨rowD (PyVal.num 100), List.mem_singleton_self _, 100, rfl⟩)
  constructor
  · rw [k1, h100, h200]
    show Option.some (PFloat.num ((100 * (1 + (10 : ℚ) / 100) + 200) / 2))
      = Option.some (PFloat.num 155)
    norm_num
  · rw [k2, h100]
    show Option.some (PFloat.num ((100 * (1 + (-50 : ℚ) / 100) + 100) / 2))
      = Option.some (PFloat.num 75)
    norm_num
